import Mathlib

/-!
Verification of the cubik LED-matrix controller core: the wire codec
(`encodeRGBColor`, `Framebuffer.Encode`), the framebuffer text renderer
(`DrawDigit`, `DrawString`), the protocol client (`parseLocation`,
`SendCommand`), the discovery deduplication loop, and the per-device
animation scheduler (`PlayAnimation`, `StartDeviceAnimation`,
`StopDeviceAnimation`).  Each definition is a shallow embedding of the
corresponding Go function; network and goroutine effects are represented
by explicit environments and an interleaving step relation.
-/

/-- An RGB color with three 8-bit channels (`Color` in `drawing.go`).
Channel values are `Nat` taken modulo 256 where the Go `uint8` type
bounds them. -/
structure Color where
  R : Nat
  G : Nat
  B : Nat
  deriving DecidableEq

/-- The standard base64 alphabet used by Go `encoding/base64.StdEncoding`. -/
def base64Alphabet : List Char :=
  "ABCDEFGHIJKLMNOPQRSTUVWXYZabcdefghijklmnopqrstuvwxyz0123456789+/".data

/-- The base64 digit for a 6-bit group. -/
def b64Char (n : Nat) : Char := base64Alphabet.getD n 'A'

/-- `encodeRGBColor` from `commands.go`: base64-encodes the three bytes
`[r, g, b]`.  For exactly three input bytes, `EncodeToString` emits the
four base64 digits of the 24-bit group `r*2^16 + g*2^8 + b` and no
padding. -/
def encodeRGBColor (r g b : Nat) : String :=
  let n := (r % 256) * 65536 + (g % 256) * 256 + (b % 256)
  String.mk [b64Char (n / 262144 % 64), b64Char (n / 4096 % 64),
             b64Char (n / 64 % 64), b64Char (n % 64)]

/-- `Framebuffer` from `drawing.go`: a `Width × Height` pixel grid stored
row-major in `Pixels` (index `y*Width + x`). -/
structure Framebuffer where
  Width : Nat
  Height : Nat
  Pixels : List Color
  deriving DecidableEq

/-- `NewFramebuffer` from `drawing.go`: all pixels start black. -/
def NewFramebuffer (width height : Nat) : Framebuffer :=
  { Width := width, Height := height,
    Pixels := List.replicate (width * height) ⟨0, 0, 0⟩ }

/-- `Framebuffer.Encode` from `drawing.go`: walks rows top to bottom
(`y` ascending) and within each row walks `x` from `Width-1` down to `0`,
appending `encodeRGBColor` of each pixel to the string builder.  The
Go code indexes `Pixels[y*Width+x]`, which is in range whenever `Pixels`
has `Width*Height` entries (as `NewFramebuffer` guarantees); out-of-range
reads are modeled by `getD` with a black default. -/
def Framebuffer.Encode (fb : Framebuffer) : String :=
  (List.range fb.Height).foldl (fun acc y =>
    ((List.range fb.Width).reverse).foldl (fun acc2 x =>
      let pixel := fb.Pixels.getD (y * fb.Width + x) ⟨0, 0, 0⟩
      acc2 ++ encodeRGBColor pixel.R pixel.G pixel.B) acc) ""

/-- `Alignment` from `drawing.go` (named `GoAlignment` here because Lean
already uses the source name): an `int`-valued enumeration with the three
constants below; the Go type does not exclude other values, which
`DrawString` rejects in its `default` switch case. -/
abbrev GoAlignment := Int

/-- `AlignLeft` (= iota 0). -/
def AlignLeft : GoAlignment := 0

/-- `AlignCenter` (= 1). -/
def AlignCenter : GoAlignment := 1

/-- `AlignRight` (= 2). -/
def AlignRight : GoAlignment := 2

/-- `DigitBitmap` from `drawing.go`: a 5×5 glyph, row 0 on top, column 0
on the left. -/
abbrev DigitBitmap := List (List Bool)

/-- The `digitFont` table from `drawing.go`: one 5×5 bitmap per digit
character, `none` for every other character (Go map lookup miss). -/
def digitFont : Char → Option DigitBitmap
  | '0' => some [[true, true, true, true, true],
                 [true, false, false, false, true],
                 [true, false, false, false, true],
                 [true, false, false, false, true],
                 [true, true, true, true, true]]
  | '1' => some [[false, false, true, false, false],
                 [false, true, true, false, false],
                 [false, false, true, false, false],
                 [false, false, true, false, false],
                 [false, true, true, true, false]]
  | '2' => some [[true, true, true, true, true],
                 [false, false, false, false, true],
                 [true, true, true, true, true],
                 [true, false, false, false, false],
                 [true, true, true, true, true]]
  | '3' => some [[true, true, true, true, true],
                 [false, false, false, false, true],
                 [true, true, true, true, true],
                 [false, false, false, false, true],
                 [true, true, true, true, true]]
  | '4' => some [[true, false, false, false, true],
                 [true, false, false, false, true],
                 [true, true, true, true, true],
                 [false, false, false, false, true],
                 [false, false, false, false, true]]
  | '5' => some [[true, true, true, true, true],
                 [true, false, false, false, false],
                 [true, true, true, true, true],
                 [false, false, false, false, true],
                 [true, true, true, true, true]]
  | '6' => some [[true, true, true, true, true],
                 [true, false, false, false, false],
                 [true, true, true, true, true],
                 [true, false, false, false, true],
                 [true, true, true, true, true]]
  | '7' => some [[true, true, true, true, true],
                 [false, false, false, false, true],
                 [false, false, false, true, false],
                 [false, false, true, false, false],
                 [false, true, false, false, false]]
  | '8' => some [[true, true, true, true, true],
                 [true, false, false, false, true],
                 [true, true, true, true, true],
                 [true, false, false, false, true],
                 [true, true, true, true, true]]
  | '9' => some [[true, true, true, true, true],
                 [true, false, false, false, true],
                 [true, true, true, true, true],
                 [false, false, false, false, true],
                 [true, true, true, true, true]]
  | _ => none

/-- Reads `bitmap[row][col]` (always in range for font entries). -/
def bitmapAt (bitmap : DigitBitmap) (row col : Nat) : Bool :=
  (bitmap.getD row []).getD col false

/-- `Framebuffer.SetPixel` from `drawing.go`: bounds-checked pixel write.
Coordinates are Go `int`s, modeled as `Int`. -/
def Framebuffer.SetPixel (fb : Framebuffer) (x y : Int) (color : Color) :
    Except String Framebuffer :=
  if x < 0 ∨ (fb.Width : Int) ≤ x ∨ y < 0 ∨ (fb.Height : Int) ≤ y then
    .error "pixel coordinates out of bounds"
  else
    .ok { fb with Pixels := fb.Pixels.set (y * (fb.Width : Int) + x).toNat color }

/-- `DrawDigit` from `drawing.go`: font lookup, 5×5 bounds check, then a
row-major blit of the glyph through `SetPixel`, propagating any pixel
error wrapped as in the source. -/
def DrawDigit (fb : Framebuffer) (digit : Char) (x y : Int)
    (color background : Color) : Except String Framebuffer :=
  match digitFont digit with
  | none => .error "invalid digit character"
  | some bitmap =>
    if (fb.Width : Int) < x + 5 ∨ (fb.Height : Int) < y + 5 ∨ x < 0 ∨ y < 0 then
      .error "digit position exceeds bounds"
    else
      (List.range 5).foldlM (fun fbRow row =>
        (List.range 5).foldlM (fun fbCell col =>
          let pixelColor := if bitmapAt bitmap row col then color else background
          match fbCell.SetPixel (x + (col : Int)) (y + (row : Int)) pixelColor with
          | .error e => .error ("failed to set pixel: " ++ e)
          | .ok fb2 => .ok fb2) fbRow) fb

/-- The `for _, digit := range str` loop of `DrawString`: draws each
glyph at the accumulated `currentX`, advancing by `5 + spacing`. -/
def drawDigitsLoop (fb : Framebuffer) (ds : List Char) (currentX y spacing : Int)
    (color background : Color) : Except String Framebuffer :=
  match ds with
  | [] => .ok fb
  | d :: rest =>
    match DrawDigit fb d currentX y color background with
    | .error e => .error ("failed to draw digit: " ++ e)
    | .ok fb2 => drawDigitsLoop fb2 rest (currentX + 5 + spacing) y spacing color background

/-- `DrawString` from `drawing.go`: empty-string check, total-width
check, start X from the alignment switch (with `default` an error), then
the glyph loop.  Go strings of digits are modeled as `List Char`. -/
def DrawString (fb : Framebuffer) (str : List Char) (y spacing : Int)
    (alignment : GoAlignment) (color background : Color) : Except String Framebuffer :=
  if str.length = 0 then .error "cannot draw empty string"
  else
    let totalWidth : Int := (str.length : Int) * 5 + ((str.length : Int) - 1) * spacing
    if (fb.Width : Int) < totalWidth then .error "string too wide"
    else
      match (if alignment = AlignLeft then some 0
             else if alignment = AlignCenter then some (((fb.Width : Int) - totalWidth) / 2)
             else if alignment = AlignRight then some ((fb.Width : Int) - totalWidth)
             else none) with
      | none => .error "invalid alignment value"
      | some startX => drawDigitsLoop fb str startX y spacing color background

/-- The glyph loop as the spec words it: glyph number `k` (0-based) is
blitted at `startX + k * (5 + spacing)`. -/
def drawDigitsAtIndex (fb : Framebuffer) (ds : List Char) (k : Nat)
    (startX y spacing : Int) (color background : Color) : Except String Framebuffer :=
  match ds with
  | [] => .ok fb
  | d :: rest =>
    match DrawDigit fb d (startX + (k : Int) * (5 + spacing)) y color background with
    | .error e => .error ("failed to draw digit: " ++ e)
    | .ok fb2 => drawDigitsAtIndex fb2 rest (k + 1) startX y spacing color background

/-- `DrawString` as the spec describes it (refinement reference): total
rendered width `5*len + spacing*(len-1)`, failure when it exceeds the
buffer width, start X `0` / `(width-totalWidth)/2` / `width-totalWidth`
for left / center / right, an error for any other alignment value, and
glyph `k` blitted at `startX + k*(5+spacing)`. -/
def DrawStringSpec (fb : Framebuffer) (str : List Char) (y spacing : Int)
    (alignment : GoAlignment) (color background : Color) : Except String Framebuffer :=
  if str.length = 0 then .error "cannot draw empty string"
  else
    let totalWidth : Int := (str.length : Int) * 5 + ((str.length : Int) - 1) * spacing
    if (fb.Width : Int) < totalWidth then .error "string too wide"
    else
      match (if alignment = AlignLeft then some 0
             else if alignment = AlignCenter then some (((fb.Width : Int) - totalWidth) / 2)
             else if alignment = AlignRight then some ((fb.Width : Int) - totalWidth)
             else none) with
      | none => .error "invalid alignment value"
      | some startX => drawDigitsAtIndex fb str 0 startX y spacing color background

/-- `DeviceInfo` from `discovery.go`: identity, descriptive fields and
last-known property snapshot, all parsed as strings. -/
structure DeviceInfo where
  Location : String := ""
  ID : String := ""
  Model : String := ""
  FwVer : String := ""
  Support : String := ""
  Power : String := ""
  Bright : String := ""
  ColorMode : String := ""
  CT : String := ""
  RGB : String := ""
  Hue : String := ""
  Sat : String := ""
  Name : String := ""
  deriving DecidableEq

/-- The fixed scheme prefix `parseLocation` strips. -/
def yeelightScheme : String := "yeelight://"

/-- Go `strings.TrimPrefix`: drops `pre` when it prefixes `s`, otherwise
returns `s` unchanged. -/
def trimPrefixGo (s pre : String) : String :=
  if pre.data.isPrefixOf s.data then String.mk (s.data.drop pre.data.length) else s

/-- `parseLocation` from `commands.go`: strips the `yeelight://` prefix;
when `TrimPrefix` returned the input unchanged (prefix absent) the
location is rejected with a validation error. -/
def parseLocation (location : String) : Except String String :=
  if trimPrefixGo location yeelightScheme = location then
    .error ("invalid location format: " ++ location)
  else .ok (trimPrefixGo location yeelightScheme)

/-- A JSON value, standing for the Go `interface{}` entries of a command
result array. -/
inductive JsonValue where
  | str (s : String)
  | num (n : Int)
  | bool (b : Bool)
  | null
  deriving DecidableEq

/-- The `error{code,message}` object of `CommandResponse` in `commands.go`. -/
structure DeviceError where
  code : Int
  message : String
  deriving DecidableEq

/-- `CommandResponse` from `commands.go`. -/
structure CommandResponse where
  id : Int
  result : List JsonValue
  error : Option DeviceError
  deriving DecidableEq

/-- A Go `error` value as this source constructs them: either a plain
`fmt.Errorf`/`errors.New` message, or a `fmt.Errorf` with `%w` wrapping a
cause. -/
inductive GoError where
  | errorf (msg : String)
  | wrap (msg : String) (cause : GoError)
  deriving DecidableEq

/-- The outcome of the network layer for one `SendCommand` exchange:
which stage failed first (with the underlying error), or the parsed reply
line.  `json.Marshal` of a `CommandRequest` cannot fail in practice, but
the code checks it, so the stage is represented. -/
inductive NetOutcome where
  | connectFailure (cause : GoError)
  | marshalFailure (cause : GoError)
  | writeFailure (cause : GoError)
  | readFailure (cause : GoError)
  | parseFailure (cause : GoError)
  | reply (response : CommandResponse)
  deriving DecidableEq

/-- `SendCommand` from `commands.go`, with the network abstracted by a
`NetOutcome`: parse the location (validation error before any connection
attempt), fail with a wrapped transport error if connect / marshal /
write / read / unmarshal failed, and otherwise inspect the reply: a
device `error` object yields the response together with a
`device error: [code] message` error; otherwise the response alone. -/
def SendCommand (device : DeviceInfo) (net : NetOutcome) :
    Option CommandResponse × Option GoError :=
  match parseLocation device.Location with
  | .error e => (none, some (.errorf e))
  | .ok addr =>
    match net with
    | .connectFailure cause => (none, some (.wrap ("failed to connect to " ++ addr) cause))
    | .marshalFailure cause => (none, some (.wrap "failed to encode command" cause))
    | .writeFailure cause => (none, some (.wrap "failed to send command" cause))
    | .readFailure cause => (none, some (.wrap "failed to read response" cause))
    | .parseFailure cause => (none, some (.wrap "failed to parse response" cause))
    | .reply response =>
      match response.error with
      | some derr =>
          (some response,
           some (.errorf ("device error: [" ++ toString derr.code ++ "] " ++ derr.message)))
      | none => (some response, none)

/-- `bufio.Scanner` line splitting used by `parseDeviceInfo`: split the
datagram at newlines, dropping one trailing carriage return per line.
(A trailing newline makes Go produce one fewer token; the extra empty
line here has no colon and is skipped by `applyHeader`, so the parse
result is unchanged.) -/
def scanLines (response : String) : List String :=
  (response.splitOn "\n").map (fun line =>
    if line.endsWith "\r" then line.dropRight 1 else line)

/-- Go `strings.SplitN(line, ":", 2)`: at most two parts, the second
keeping any further colons. -/
def splitN2Colon (line : String) : List String :=
  match line.splitOn ":" with
  | [] => []
  | [one] => [one]
  | p :: rest => [p, String.intercalate ":" rest]

/-- One iteration of the `parseDeviceInfo` scanner loop from
`discovery.go`: malformed lines (no colon) are skipped, recognized
headers (compared lowercased and trimmed) set their field, unknown
headers are ignored. -/
def applyHeader (device : DeviceInfo) (line : String) : DeviceInfo :=
  match splitN2Colon line with
  | [h, v] =>
    let header := h.trim.toLower
    let value := v.trim
    if header = "location" then { device with Location := value }
    else if header = "id" then { device with ID := value }
    else if header = "model" then { device with Model := value }
    else if header = "fw_ver" then { device with FwVer := value }
    else if header = "support" then { device with Support := value }
    else if header = "power" then { device with Power := value }
    else if header = "bright" then { device with Bright := value }
    else if header = "color_mode" then { device with ColorMode := value }
    else if header = "ct" then { device with CT := value }
    else if header = "rgb" then { device with RGB := value }
    else if header = "hue" then { device with Hue := value }
    else if header = "sat" then { device with Sat := value }
    else if header = "name" then { device with Name := value }
    else device
  | _ => device

/-- `parseDeviceInfo` from `discovery.go`. -/
def parseDeviceInfo (response : String) : DeviceInfo :=
  (scanLines response).foldl applyHeader {}

/-- One iteration of the `DiscoverDevices` read loop from `discovery.go`
after a successful datagram read: parse the reply and store it under its
location only when the location is not yet present
(`discoveredDevices[deviceInfo.Location] == nil`). -/
def collectStep (devices : List (String × DeviceInfo)) (reply : String) :
    List (String × DeviceInfo) :=
  let deviceInfo := parseDeviceInfo reply
  if (devices.lookup deviceInfo.Location).isNone then
    devices ++ [(deviceInfo.Location, deviceInfo)]
  else devices

/-- The `discoveredDevices` map of `DiscoverDevices` after processing a
sequence of discovery replies, represented as an association list in
arrival order (the Go map is unordered; only key membership matters). -/
def collectDevices (replies : List String) : List (String × DeviceInfo) :=
  replies.foldl collectStep []

/-- One tick of the `PlayAnimation` loop body from `animation.go` (the
`case <-ticker.C` branch): reset `frameIndex` to 0 once it has run past
the end, read `state.Frames[frameIndex]` (an out-of-range read — a Go
index panic — is modeled as `none`), then advance the index.  The loop
has no exit other than context cancellation, so the tick functions below
are total in the tick number. -/
def loopIter (frames : List (List Color)) (frameIndex : Nat) :
    Option (List Color) × Nat :=
  let i := if frames.length ≤ frameIndex then 0 else frameIndex
  (frames[i]?, i + 1)

/-- The value of `frameIndex` after `t` ticks of the loop (0 before the
first tick). -/
def frameIndexAfter (frames : List (List Color)) : Nat → Nat
  | 0 => 0
  | t + 1 => (loopIter frames (frameIndexAfter frames t)).2

/-- The frame the `PlayAnimation` loop sends on tick `t` (ticks counted
from 1). -/
def frameSentAt (frames : List (List Color)) (t : Nat) : Option (List Color) :=
  (loopIter frames (frameIndexAfter frames (t - 1))).1

/-- The lifecycle phase of one `PlayAnimation` goroutine from
`animation.go`. -/
inductive TaskPhase where
  | activating
  | looping
  | exited
  deriving DecidableEq

/-- One spawned `PlayAnimation` goroutine together with its
`AnimationState` and cancellable context from `animation.go`.
`activateFails` is the environment: whether the one-shot
`ActivateFxMode` exchange of this session fails.  `tickPending` models
the ticker having fired; `inTick` models having entered the
`case <-ticker.C` branch with the frame send not yet performed. -/
structure TaskRec where
  sid : Nat
  key : String
  framesLen : Nat
  activateFails : Bool
  cancelled : Bool
  phase : TaskPhase
  tickPending : Bool
  inTick : Bool
  frameIndex : Nat
  deriving DecidableEq

/-- Observable events of the animation scheduler, appended in order of
occurrence. -/
inductive SchedEvent where
  | registered (sid : Nat) (key : String)
  | sent (sid : Nat) (frameIndex : Nat)
  | loggedActivationError (sid : Nat)
  deriving DecidableEq

/-- The shared state of `animation.go`: the `runningAnimations` registry
(device location → session), the spawned goroutines (indexed by a
bookkeeping session id standing for Go pointer identity; records persist
after exit with phase `exited`), a fresh-id counter, and the event
trace. -/
structure SchedState where
  registry : String → Option Nat
  tasks : Nat → Option TaskRec
  nextSid : Nat
  events : List SchedEvent

/-- The initial state: no sessions, no goroutines, empty trace. -/
def initState : SchedState :=
  { registry := fun _ => none, tasks := fun _ => none, nextSid := 0, events := [] }

/-- Pointwise registry update (Go map assignment or delete). -/
def setReg (reg : String → Option Nat) (k : String) (v : Option Nat) :
    String → Option Nat :=
  fun k2 => if k2 = k then v else reg k2

/-- Pointwise task-table update. -/
def setTask (ts : Nat → Option TaskRec) (sid : Nat) (v : Option TaskRec) :
    Nat → Option TaskRec :=
  fun s => if s = sid then v else ts s

/-- The `CancelFunc` call for session `sid`: marks its context
cancelled. -/
def cancelTask (ts : Nat → Option TaskRec) (sid : Nat) : Nat → Option TaskRec :=
  fun s => if s = sid then (ts s).map (fun t => { t with cancelled := true }) else ts s

/-- `StopDeviceAnimation` from `animation.go`: under the registry mutex,
look the key up; when present, call the session's `CancelFunc` and
delete the registry entry.  The function then returns — nothing awaits
the goroutine's exit. -/
def StopDeviceAnimation (key : String) (st : SchedState) : SchedState :=
  match st.registry key with
  | some sid =>
    { st with registry := setReg st.registry key none,
              tasks := cancelTask st.tasks sid }
  | none => st

/-- `StartDeviceAnimation` from `animation.go`: stop any existing session
for this key, create a fresh cancellable context and `AnimationState`,
store it in the registry, spawn the `PlayAnimation` goroutine (in its
`activating` phase), and return `nil` — the Go function returns no error
on any path. -/
def StartDeviceAnimation (key : String) (framesLen : Nat) (activateFails : Bool)
    (st : SchedState) : SchedState × Option GoError :=
  let st1 := StopDeviceAnimation key st
  let sid := st1.nextSid
  ({ registry := setReg st1.registry key (some sid),
     tasks := setTask st1.tasks sid (some
       { sid := sid, key := key, framesLen := framesLen,
         activateFails := activateFails, cancelled := false,
         phase := .activating, tickPending := false, inTick := false,
         frameIndex := 0 }),
     nextSid := sid + 1,
     events := st1.events ++ [.registered sid key] }, none)

/-- One interleaving action: an API call or one step of a spawned
goroutine.  Goroutine steps mirror `PlayAnimation`: the activation
exchange (on failure the goroutine logs the error and its deferred
cleanup deletes the device key — whatever session now holds it — and
calls `cancelFunc`); the ticker firing; entering the `case <-ticker.C`
branch (modeled as possible only while the context is not yet cancelled,
which is conservative — Go's `select` may pick the ticker even when both
channels are ready); completing that branch with the frame send; and
observing cancellation, which runs the deferred cleanup and exits. -/
inductive SchedAction where
  | start (key : String) (framesLen : Nat) (activateFails : Bool)
  | stop (key : String)
  | taskActivate (sid : Nat)
  | tickFire (sid : Nat)
  | taskBeginTick (sid : Nat)
  | taskFinishTick (sid : Nat)
  | taskObserveCancel (sid : Nat)

/-- The interleaving small-step function over `animation.go`'s shared
state. -/
def step (st : SchedState) : SchedAction → SchedState
  | .start key framesLen activateFails =>
    (StartDeviceAnimation key framesLen activateFails st).1
  | .stop key => StopDeviceAnimation key st
  | .taskActivate sid =>
    match st.tasks sid with
    | some t =>
      if t.phase = TaskPhase.activating then
        if t.activateFails then
          { st with registry := setReg st.registry t.key none,
                    tasks := setTask st.tasks sid
                      (some { t with phase := .exited, cancelled := true }),
                    events := st.events ++ [.loggedActivationError sid] }
        else
          { st with tasks := setTask st.tasks sid (some { t with phase := .looping }) }
      else st
    | none => st
  | .tickFire sid =>
    match st.tasks sid with
    | some t =>
      if t.phase = TaskPhase.looping ∧ t.inTick = false then
        { st with tasks := setTask st.tasks sid (some { t with tickPending := true }) }
      else st
    | none => st
  | .taskBeginTick sid =>
    match st.tasks sid with
    | some t =>
      if t.phase = TaskPhase.looping ∧ t.tickPending = true ∧ t.inTick = false
          ∧ t.cancelled = false then
        { st with tasks := setTask st.tasks sid (some
            { t with tickPending := false, inTick := true,
                     frameIndex := if t.framesLen ≤ t.frameIndex then 0 else t.frameIndex }) }
      else st
    | none => st
  | .taskFinishTick sid =>
    match st.tasks sid with
    | some t =>
      if t.phase = TaskPhase.looping ∧ t.inTick = true then
        { st with
          tasks := setTask st.tasks sid
            (some { t with inTick := false, frameIndex := t.frameIndex + 1 }),
          events := st.events ++ [.sent sid t.frameIndex] }
      else st
    | none => st
  | .taskObserveCancel sid =>
    match st.tasks sid with
    | some t =>
      if t.phase = TaskPhase.looping ∧ t.cancelled = true ∧ t.inTick = false then
        { st with registry := setReg st.registry t.key none,
                  tasks := setTask st.tasks sid (some { t with phase := .exited }) }
      else st
    | none => st

/-- Runs a finite interleaving of scheduler actions. -/
def runActions (st : SchedState) (script : List SchedAction) : SchedState :=
  script.foldl step st

/-- Invariant of reachable scheduler states: session ids at or above the
fresh counter are unused; a session whose activation exchange fails never
reaches the `looping` phase nor the tick branch; and every `sent` event
in the trace belongs to a session whose activation succeeded. -/
structure SchedInv (st : SchedState) : Prop where
  fresh : ∀ s : Nat, st.nextSid ≤ s → st.tasks s = none
  failingNoLoop : ∀ (s : Nat) (t : TaskRec), st.tasks s = some t →
      t.activateFails = true →
      (t.phase = TaskPhase.activating ∨ t.phase = TaskPhase.exited) ∧ t.inTick = false
  sentOk : ∀ (s fi : Nat), SchedEvent.sent s fi ∈ st.events →
      ∃ t, st.tasks s = some t ∧ t.activateFails = false

theorem encodeRGBColor_length (r g b : Nat) : (encodeRGBColor r g b).length = 4 := rfl

theorem length_foldl_const_growth {α : Type} (c : Nat) (step : String → α → String)
    (h : ∀ (acc : String) (x : α), (step acc x).length = acc.length + c) :
    ∀ (l : List α) (acc : String), (l.foldl step acc).length = acc.length + c * l.length := by
  intro l
  induction l with
  | nil => intro acc; simp
  | cons x xs ih =>
    intro acc
    simp only [List.foldl_cons, List.length_cons]
    rw [ih, h]
    ring

theorem encode_row_length (fb : Framebuffer) (y : Nat) (acc : String) :
    (((List.range fb.Width).reverse).foldl (fun acc2 x =>
      let pixel := fb.Pixels.getD (y * fb.Width + x) ⟨0, 0, 0⟩
      acc2 ++ encodeRGBColor pixel.R pixel.G pixel.B) acc).length
      = acc.length + 4 * fb.Width := by
  have := length_foldl_const_growth (α := Nat) 4
    (fun acc2 x =>
      let pixel := fb.Pixels.getD (y * fb.Width + x) ⟨0, 0, 0⟩
      acc2 ++ encodeRGBColor pixel.R pixel.G pixel.B)
    (fun acc2 x => by simp [String.length_append, encodeRGBColor_length])
    ((List.range fb.Width).reverse) acc
  simpa using this

theorem encode_length_general (fb : Framebuffer) :
    fb.Encode.length = 4 * fb.Width * fb.Height := by
  unfold Framebuffer.Encode
  have h := length_foldl_const_growth (α := Nat) (4 * fb.Width)
    (fun acc y => ((List.range fb.Width).reverse).foldl (fun acc2 x =>
      let pixel := fb.Pixels.getD (y * fb.Width + x) ⟨0, 0, 0⟩
      acc2 ++ encodeRGBColor pixel.R pixel.G pixel.B) acc)
    (fun acc y => encode_row_length fb y acc)
    (List.range fb.Height) ""
  simpa using h

/-- C3: `Framebuffer.Encode` of a well-formed `width × height` framebuffer
always produces exactly `4 × width × height` characters, and encodes the
pixels row by row from the top with the X coordinate reversed within each
row: for a 5×1 buffer with columns `[A,B,C,D,E]` left-to-right, the
encoded pixel order is `[E,D,C,B,A]`. -/
theorem encode_length_and_reversed_order :
    (∀ fb : Framebuffer, fb.Pixels.length = fb.Width * fb.Height →
        fb.Encode.length = 4 * fb.Width * fb.Height) ∧
    (∀ A B C D E : Color,
        (Framebuffer.mk 5 1 [A, B, C, D, E]).Encode =
          encodeRGBColor E.R E.G E.B ++ encodeRGBColor D.R D.G D.B ++
            encodeRGBColor C.R C.G C.B ++ encodeRGBColor B.R B.G B.B ++
            encodeRGBColor A.R A.G A.B) := by
  constructor
  · intro fb _h
    exact encode_length_general fb
  · intro A B C D E
    rfl

/-- Witness for C3: a concrete 1×1 framebuffer holding red satisfies the
well-formedness hypothesis and encodes to 4 characters. -/
theorem encode_length_and_reversed_order_witness :
    (Framebuffer.mk 1 1 [⟨255, 0, 0⟩]).Pixels.length = 1 * 1 ∧
    (Framebuffer.mk 1 1 [⟨255, 0, 0⟩]).Encode.length = 4 * 1 * 1 :=
  ⟨by decide, encode_length_and_reversed_order.1 (Framebuffer.mk 1 1 [⟨255, 0, 0⟩]) (by decide)⟩

theorem drawDigitsLoop_eq_atIndex (ds : List Char) (fb : Framebuffer) (k : Nat)
    (startX y spacing : Int) (color background : Color) :
    drawDigitsLoop fb ds (startX + (k : Int) * (5 + spacing)) y spacing color background
      = drawDigitsAtIndex fb ds k startX y spacing color background := by
  induction ds generalizing fb k with
  | nil => rfl
  | cons d rest ih =>
    simp only [drawDigitsLoop, drawDigitsAtIndex]
    cases DrawDigit fb d (startX + (k : Int) * (5 + spacing)) y color background with
    | error e => rfl
    | ok fb2 =>
      have harith : startX + (k : Int) * (5 + spacing) + 5 + spacing
          = startX + ((k + 1 : Nat) : Int) * (5 + spacing) := by
        push_cast
        ring
      rw [harith]
      exact ih fb2 (k + 1)

/-- C7: `DrawString` behaves exactly as the spec words it: total rendered
width `5*len + spacing*(len-1)` with a validation error when it exceeds
the buffer width, start X `0` for left, `(width-totalWidth)/2` for
center, `width-totalWidth` for right, glyph `k` blitted at
`startX + k*(5+spacing)`, and an error (never a silent default) for any
alignment value outside the three constants. -/
theorem drawString_matches_spec (fb : Framebuffer) (str : List Char)
    (y spacing : Int) (alignment : GoAlignment) (color background : Color) :
    DrawString fb str y spacing alignment color background
      = DrawStringSpec fb str y spacing alignment color background := by
  unfold DrawString DrawStringSpec
  by_cases h0 : str.length = 0
  · simp [h0]
  · simp only [h0, if_false]
    set totalWidth : Int := (str.length : Int) * 5 + ((str.length : Int) - 1) * spacing
    by_cases hw : (fb.Width : Int) < totalWidth
    · simp [hw]
    · simp only [hw, if_false]
      have hloop : ∀ sx : Int,
          drawDigitsLoop fb str sx y spacing color background
            = drawDigitsAtIndex fb str 0 sx y spacing color background := by
        intro sx
        have := drawDigitsLoop_eq_atIndex str fb 0 sx y spacing color background
        simpa using this
      by_cases ha : alignment = AlignLeft
      · simp [ha, hloop]
      · by_cases hb : alignment = AlignCenter
        · simp [ha, hb, hloop]
        · by_cases hc : alignment = AlignRight
          · simp [ha, hb, hc, hloop]
          · simp [ha, hb, hc]

/-- C9: `DrawString` on the empty string returns the validation error
`cannot draw empty string` for every framebuffer, position, spacing,
alignment and color pair — it never succeeds as a no-op, regardless of
the buffer width. -/
theorem drawString_empty_is_error (fb : Framebuffer) (y spacing : Int)
    (alignment : GoAlignment) (color background : Color) :
    DrawString fb [] y spacing alignment color background
      = Except.error "cannot draw empty string" := rfl

theorem isPrefixOf_length_le {l1 l2 : List Char} (h : l1.isPrefixOf l2 = true) :
    l1.length ≤ l2.length := by
  induction l1 generalizing l2 with
  | nil => simp
  | cons a t ih =>
    cases l2 with
    | nil => simp [List.isPrefixOf] at h
    | cons b t2 =>
      simp only [List.isPrefixOf, Bool.and_eq_true] at h
      simpa using ih h.2

/-- C10: `parseLocation` accepts exactly the strings carrying the
`yeelight://` prefix, returning the remainder unchecked; the input that
is exactly the prefix yields the empty address, and the validation error
is raised precisely when the prefix is absent. -/
theorem parseLocation_accepts_iff_scheme :
    (∀ s : String, yeelightScheme.data.isPrefixOf s.data = true →
        parseLocation s = .ok (String.mk (s.data.drop yeelightScheme.data.length))) ∧
    (∀ s : String, yeelightScheme.data.isPrefixOf s.data = false →
        parseLocation s = .error ("invalid location format: " ++ s)) ∧
    parseLocation "yeelight://" = .ok "" := by
  refine ⟨?_, ?_, by rfl⟩
  · intro s h
    have htrim : trimPrefixGo s yeelightScheme
        = String.mk (s.data.drop yeelightScheme.data.length) := by
      unfold trimPrefixGo
      rw [if_pos h]
    have hne : String.mk (s.data.drop yeelightScheme.data.length) ≠ s := by
      intro heq
      cases s with
      | mk data =>
        have hlen : yeelightScheme.data.length ≤ data.length := isPrefixOf_length_le h
        have hdata : data.drop yeelightScheme.data.length = data := congrArg String.data heq
        have hlen2 := congrArg List.length hdata
        simp only [List.length_drop] at hlen2
        have h11 : yeelightScheme.data.length = 11 := rfl
        rw [h11] at hlen2 hlen
        omega
    unfold parseLocation
    rw [htrim, if_neg hne]
  · intro s h
    have htrim : trimPrefixGo s yeelightScheme = s := by
      unfold trimPrefixGo
      rw [if_neg (by simp [h])]
    unfold parseLocation
    rw [htrim, if_pos rfl]

/-- Witness for C10 at a concrete device location. -/
theorem parseLocation_accepts_iff_scheme_witness :
    yeelightScheme.data.isPrefixOf "yeelight://192.168.1.239:55443".data = true ∧
    parseLocation "yeelight://192.168.1.239:55443"
      = .ok (String.mk ("yeelight://192.168.1.239:55443".data.drop yeelightScheme.data.length)) :=
  ⟨by decide, parseLocation_accepts_iff_scheme.1 "yeelight://192.168.1.239:55443" (by decide)⟩

/-- C6: when the device replies with an `error` object, `SendCommand`
returns an unwrapped `device error: [code] message` error carrying the
numeric code and message, paired with the (non-`none`) parsed response;
every transport failure (connect/marshal/write/read) instead returns a
wrapped transport error and no response, so the two outcomes are
distinguishable — the final conjuncts state the inequalities. -/
theorem sendCommand_device_error_distinguishable
    (device : DeviceInfo) (addr : String) (response : CommandResponse)
    (derr : DeviceError) (cause : GoError)
    (hloc : parseLocation device.Location = .ok addr)
    (herr : response.error = some derr) :
    SendCommand device (.reply response)
        = (some response,
           some (.errorf ("device error: [" ++ toString derr.code ++ "] " ++ derr.message))) ∧
    SendCommand device (.connectFailure cause)
        = (none, some (.wrap ("failed to connect to " ++ addr) cause)) ∧
    SendCommand device (.writeFailure cause)
        = (none, some (.wrap "failed to send command" cause)) ∧
    SendCommand device (.readFailure cause)
        = (none, some (.wrap "failed to read response" cause)) ∧
    SendCommand device (.reply response) ≠ SendCommand device (.connectFailure cause) ∧
    SendCommand device (.reply response) ≠ SendCommand device (.writeFailure cause) ∧
    SendCommand device (.reply response) ≠ SendCommand device (.readFailure cause) := by
  have h1 : SendCommand device (.reply response)
      = (some response,
         some (.errorf ("device error: [" ++ toString derr.code ++ "] " ++ derr.message))) := by
    simp [SendCommand, hloc, herr]
  have h2 : SendCommand device (.connectFailure cause)
      = (none, some (.wrap ("failed to connect to " ++ addr) cause)) := by
    simp [SendCommand, hloc]
  have h3 : SendCommand device (.writeFailure cause)
      = (none, some (.wrap "failed to send command" cause)) := by
    simp [SendCommand, hloc]
  have h4 : SendCommand device (.readFailure cause)
      = (none, some (.wrap "failed to read response" cause)) := by
    simp [SendCommand, hloc]
  refine ⟨h1, h2, h3, h4, ?_, ?_, ?_⟩
  · rw [h1, h2]; simp
  · rw [h1, h3]; simp
  · rw [h1, h4]; simp

/-- Witness for C6 at a concrete device, reply and transport failure. -/
theorem sendCommand_device_error_distinguishable_witness :
    parseLocation (DeviceInfo.mk "yeelight://192.168.1.239:55443"
        "" "" "" "" "" "" "" "" "" "" "" "").Location = .ok "192.168.1.239:55443" ∧
    (CommandResponse.mk 1 [] (some (DeviceError.mk (-1) "method not supported"))).error
        = some (DeviceError.mk (-1) "method not supported") ∧
    SendCommand (DeviceInfo.mk "yeelight://192.168.1.239:55443"
        "" "" "" "" "" "" "" "" "" "" "" "")
        (.reply (CommandResponse.mk 1 [] (some (DeviceError.mk (-1) "method not supported"))))
      = (some (CommandResponse.mk 1 [] (some (DeviceError.mk (-1) "method not supported"))),
         some (.errorf ("device error: [" ++ toString (-1 : Int) ++ "] " ++ "method not supported"))) :=
  ⟨by rfl, rfl,
   (sendCommand_device_error_distinguishable
      (DeviceInfo.mk "yeelight://192.168.1.239:55443" "" "" "" "" "" "" "" "" "" "" "" "")
      "192.168.1.239:55443"
      (CommandResponse.mk 1 [] (some (DeviceError.mk (-1) "method not supported")))
      (DeviceError.mk (-1) "method not supported")
      (GoError.errorf "io timeout") (by rfl) rfl).1⟩

theorem lookup_none_imp_key_ne {β : Type} (l : List (String × β)) (k : String)
    (h : l.lookup k = none) : ∀ e ∈ l, e.1 ≠ k := by
  induction l with
  | nil => intro e he; cases he
  | cons a t ih =>
    intro e he
    obtain ⟨a1, a2⟩ := a
    by_cases hk : k = a1
    · exfalso
      simp [List.lookup, hk] at h
    · have hbeq : (k == a1) = false := by simpa using hk
      have ht : t.lookup k = none := by simpa [List.lookup, hbeq] using h
      rcases List.mem_cons.mp he with he1 | he2
      · subst he1
        exact fun hc => hk hc.symm
      · exact ih ht e he2

theorem lookup_append_single {β : Type} (l : List (String × β)) (k k2 : String) (v : β) :
    (l ++ [(k2, v)]).lookup k
      = match l.lookup k with
        | some d => some d
        | none => if k == k2 then some v else none := by
  induction l with
  | nil =>
    by_cases hk : k = k2
    · simp [List.lookup, hk]
    · have hbeq : (k == k2) = false := by simpa using hk
      simp [List.lookup, hbeq]
  | cons a t ih =>
    obtain ⟨a1, a2⟩ := a
    by_cases hk : k = a1
    · simp [List.lookup, hk]
    · have hbeq : (k == a1) = false := by simpa using hk
      simpa [List.lookup, hbeq] using ih

theorem collect_lookup_general :
    ∀ (replies : List String) (acc : List (String × DeviceInfo)) (loc : String),
      (replies.foldl collectStep acc).lookup loc
        = match acc.lookup loc with
          | some d => some d
          | none => (replies.find? (fun r => (parseDeviceInfo r).Location == loc)).map
              parseDeviceInfo := by
  intro replies
  induction replies with
  | nil =>
    intro acc loc
    cases h : acc.lookup loc <;> simp [h]
  | cons r rs ih =>
    intro acc loc
    simp only [List.foldl_cons]
    by_cases hg : (acc.lookup (parseDeviceInfo r).Location) = none
    · have hstep : collectStep acc r
          = acc ++ [((parseDeviceInfo r).Location, parseDeviceInfo r)] := by
        simp [collectStep, hg]
      rw [hstep, ih]
      rw [lookup_append_single]
      cases hal : acc.lookup loc with
      | some x => simp
      | none =>
        by_cases heq : loc = (parseDeviceInfo r).Location
        · have hbeq : ((parseDeviceInfo r).Location == loc) = true := by simp [heq]
          simp [heq, List.find?, hbeq]
        · have hbeq : ((parseDeviceInfo r).Location == loc) = false := by
            simp
            exact fun hc => heq hc.symm
          have hbeq2 : (loc == (parseDeviceInfo r).Location) = false := by simpa using heq
          simp [hbeq2, List.find?, hbeq]
    · have hstep : collectStep acc r = acc := by
        simp [collectStep, Option.isNone_iff_eq_none, hg]
      rw [hstep, ih]
      cases hal : acc.lookup loc with
      | some x => simp
      | none =>
        have heq : loc ≠ (parseDeviceInfo r).Location := by
          intro hc
          rw [hc] at hal
          exact hg hal
        have hbeq : ((parseDeviceInfo r).Location == loc) = false := by
          simp
          exact fun hc => heq hc.symm
        simp [List.find?, hbeq]

theorem collect_pairwise_general :
    ∀ (replies : List String) (acc : List (String × DeviceInfo)),
      acc.Pairwise (fun a b => a.1 ≠ b.1) →
      (replies.foldl collectStep acc).Pairwise (fun a b => a.1 ≠ b.1) := by
  intro replies
  induction replies with
  | nil => intro acc h; simpa using h
  | cons r rs ih =>
    intro acc h
    simp only [List.foldl_cons]
    by_cases hg : (acc.lookup (parseDeviceInfo r).Location) = none
    · have hstep : collectStep acc r
          = acc ++ [((parseDeviceInfo r).Location, parseDeviceInfo r)] := by
        simp [collectStep, hg]
      rw [hstep]
      refine ih _ ?_
      rw [List.pairwise_append]
      refine ⟨h, by simp, ?_⟩
      intro a ha b hb
      have hb2 : b = ((parseDeviceInfo r).Location, parseDeviceInfo r) := by simpa using hb
      subst hb2
      exact lookup_none_imp_key_ne acc _ hg a ha
    · have hstep : collectStep acc r = acc := by
        simp [collectStep, Option.isNone_iff_eq_none, hg]
      rw [hstep]
      exact ih acc h

/-- C5: in the `DiscoverDevices` collection loop, all replies sharing one
location contribute exactly one record — the collected map has pairwise
distinct location keys, and the entry stored for a location is the parse
of the first-seen reply carrying that location (later duplicates are
discarded). -/
theorem discovery_dedup_first_seen (replies : List String) (loc : String) :
    (collectDevices replies).lookup loc
        = ((replies.find? (fun r => (parseDeviceInfo r).Location == loc)).map parseDeviceInfo)
      ∧ (collectDevices replies).Pairwise (fun a b => a.1 ≠ b.1) := by
  constructor
  · have h := collect_lookup_general replies [] loc
    simpa [collectDevices] using h
  · exact collect_pairwise_general replies [] (by simp)

theorem succ_mod_eq (n s : Nat) (hn : 0 < n) :
    (s + 1) % n = if s % n + 1 = n then 0 else s % n + 1 := by
  have h1 : (s + 1) % n = (s % n + 1) % n := by
    conv_lhs => rw [← Nat.div_add_mod s n]
    rw [Nat.add_assoc, Nat.mul_add_mod]
  rw [h1]
  by_cases h : s % n + 1 = n
  · simp [h]
  · have hlt : s % n + 1 < n := by
      have := Nat.mod_lt s hn
      omega
    rw [Nat.mod_eq_of_lt hlt, if_neg h]

theorem frameIndexAfter_succ (frames : List (List Color)) (hn : 0 < frames.length) :
    ∀ s : Nat, frameIndexAfter frames (s + 1) = (s % frames.length) + 1 := by
  intro s
  induction s with
  | zero =>
    simp [frameIndexAfter, loopIter]
  | succ s2 ih =>
    have hstep : frameIndexAfter frames (s2 + 1 + 1)
        = (loopIter frames (frameIndexAfter frames (s2 + 1))).2 := rfl
    rw [hstep, ih]
    simp only [loopIter]
    rw [succ_mod_eq frames.length s2 hn]
    have hmod := Nat.mod_lt s2 hn
    by_cases hc : s2 % frames.length + 1 = frames.length
    · simp [hc]
    · have hnle : ¬ (frames.length ≤ s2 % frames.length + 1) := by omega
      simp [hc, hnle]

theorem sent_index_eq_mod (frames : List (List Color)) (hn : 0 < frames.length) (s : Nat) :
    (if frames.length ≤ frameIndexAfter frames s then 0 else frameIndexAfter frames s)
      = s % frames.length := by
  cases s with
  | zero => simp [frameIndexAfter]
  | succ s2 =>
    rw [frameIndexAfter_succ frames hn s2, succ_mod_eq frames.length s2 hn]
    have hmod := Nat.mod_lt s2 hn
    by_cases hc : s2 % frames.length + 1 = frames.length
    · simp [hc]
    · have hnle : ¬ (frames.length ≤ s2 % frames.length + 1) := by omega
      simp [hc, hnle]

/-- C4: for a non-empty frame sequence of length `N`, the `PlayAnimation`
loop sends frame `(t-1) mod N` on tick `t` — frame 0 on tick 1, frame
`k-1` on tick `k` for `k ≤ N`, and frame 0 again on tick `N+1` — and the
loop never terminates on its own (the tick functions are total). -/
theorem playback_frame_order (frames : List (List Color)) (t : Nat)
    (hne : frames ≠ []) (_ht : 1 ≤ t) :
    frameSentAt frames t = frames[(t - 1) % frames.length]? := by
  have hn : 0 < frames.length := List.length_pos.mpr hne
  unfold frameSentAt
  simp only [loopIter]
  rw [sent_index_eq_mod frames hn (t - 1)]

/-- Witness for C4: three frames, tick 4 wraps to frame 0. -/
theorem playback_frame_order_witness :
    ([[Color.mk 1 2 3], [Color.mk 4 5 6], [Color.mk 7 8 9]] ≠ ([] : List (List Color))) ∧
    1 ≤ 4 ∧
    frameSentAt [[Color.mk 1 2 3], [Color.mk 4 5 6], [Color.mk 7 8 9]] 4
      = [[Color.mk 1 2 3], [Color.mk 4 5 6], [Color.mk 7 8 9]][(4 - 1) % 3]? :=
  ⟨by decide, by decide,
   playback_frame_order [[Color.mk 1 2 3], [Color.mk 4 5 6], [Color.mk 7 8 9]] 4
     (by decide) (by decide)⟩

/-- C8: starting the playback loop with an empty frame sequence makes the
first tick read index 0 of a zero-length frame list — the out-of-bounds
branch (`none`, a Go index panic) is reached — while for every non-empty
frame sequence every tick's read is in bounds. -/
theorem playback_empty_frames_out_of_bounds :
    frameSentAt [] 1 = none ∧
    (∀ (frames : List (List Color)) (t : Nat), frames ≠ [] →
        (frameSentAt frames t).isSome = true) := by
  constructor
  · rfl
  · intro frames t hne
    have hn : 0 < frames.length := List.length_pos.mpr hne
    unfold frameSentAt
    simp only [loopIter]
    rw [sent_index_eq_mod frames hn (t - 1)]
    have hlt : (t - 1) % frames.length < frames.length := Nat.mod_lt _ hn
    rw [List.getElem?_eq_getElem hlt]
    rfl

/-- Witness for C8: a singleton frame list keeps every tick in bounds. -/
theorem playback_empty_frames_out_of_bounds_witness :
    ([[Color.mk 0 0 0]] ≠ ([] : List (List Color))) ∧
    (frameSentAt [[Color.mk 0 0 0]] 5).isSome = true :=
  ⟨by decide, playback_empty_frames_out_of_bounds.2 [[Color.mk 0 0 0]] 5 (by decide)⟩

/-- C1 counterexample: an interleaving allowed by `animation.go` in which
(i) after the `stop` inside a second `start` for the same key has
returned, the superseded goroutine is still in its loop (phase `looping`,
not exited — stop did not wait), and (ii) a frame of the superseded
session (sid 0) is sent after the new session (sid 1) was registered:
the trace ends `registered 0, registered 1, sent 0`. -/
theorem stop_does_not_wait_counterexample :
    ((runActions initState [.start "D" 1 false, .taskActivate 0, .tickFire 0,
        .taskBeginTick 0, .start "D" 2 false]).tasks 0).map TaskRec.phase
      = some TaskPhase.looping ∧
    (runActions initState [.start "D" 1 false, .taskActivate 0, .tickFire 0,
        .taskBeginTick 0, .start "D" 2 false, .taskFinishTick 0]).events
      = [.registered 0 "D", .registered 1 "D", .sent 0 0] := by
  exact ⟨rfl, rfl⟩

/-- C2 counterexample: `StartDeviceAnimation` returns `nil` even for a
session whose `ActivateFxMode` exchange fails; the error is only logged
later by the goroutine, which then exits and removes the registry
entry. -/
theorem start_nil_on_activation_failure_counterexample :
    (StartDeviceAnimation "D" 1 true initState).2 = none ∧
    (runActions initState [.start "D" 1 true, .taskActivate 0]).events
      = [.registered 0 "D", .loggedActivationError 0] ∧
    ((runActions initState [.start "D" 1 true, .taskActivate 0]).tasks 0).map TaskRec.phase
      = some TaskPhase.exited ∧
    (runActions initState [.start "D" 1 true, .taskActivate 0]).registry "D" = none := by
  exact ⟨rfl, rfl, rfl, rfl⟩

theorem setTask_same (ts : Nat → Option TaskRec) (sid : Nat) (v : Option TaskRec) :
    setTask ts sid v sid = v := by
  simp [setTask]

theorem setTask_other (ts : Nat → Option TaskRec) (sid : Nat) (v : Option TaskRec)
    (s : Nat) (hs : s ≠ sid) : setTask ts sid v s = ts s := by
  simp [setTask, hs]

theorem cancelTask_other (ts : Nat → Option TaskRec) (sid s : Nat) (hs : s ≠ sid) :
    cancelTask ts sid s = ts s := by
  simp [cancelTask, hs]

/-- C1 amended: `StopDeviceAnimation` is a no-op when no session is
registered for the key; otherwise it marks the registered session's
context cancelled and removes the registry entry, but returns without
waiting for the playback goroutine to exit — no task changes phase
during the call, so the superseded task can still be live (and, per the
counterexample trace, can still send a frame after a new session is
registered). -/
theorem stop_cancels_without_waiting (st : SchedState) (key : String) :
    (st.registry key = none → StopDeviceAnimation key st = st) ∧
    (∀ sid : Nat, st.registry key = some sid →
        (StopDeviceAnimation key st).registry key = none ∧
        (∀ t : TaskRec, st.tasks sid = some t →
            (StopDeviceAnimation key st).tasks sid = some { t with cancelled := true }) ∧
        (∀ s : Nat, ((StopDeviceAnimation key st).tasks s).map TaskRec.phase
            = (st.tasks s).map TaskRec.phase)) := by
  constructor
  · intro hreg
    simp [StopDeviceAnimation, hreg]
  · intro sid hreg
    refine ⟨?_, ?_, ?_⟩
    · simp [StopDeviceAnimation, hreg, setReg]
    · intro t hts
      simp [StopDeviceAnimation, hreg, cancelTask, hts]
    · intro s
      simp only [StopDeviceAnimation, hreg]
      by_cases hs : s = sid
      · subst hs
        cases hts : st.tasks s <;> simp [cancelTask, hts]
      · rw [cancelTask_other st.tasks sid s hs]

/-- Witness for the amended C1 at a concrete one-session state. -/
theorem stop_cancels_without_waiting_witness :
    (runActions initState [.start "D" 1 false]).registry "D" = some 0 ∧
    (StopDeviceAnimation "D" (runActions initState [.start "D" 1 false])).registry "D"
      = none :=
  ⟨rfl,
   ((stop_cancels_without_waiting (runActions initState [.start "D" 1 false]) "D").2
      0 rfl).1⟩

theorem schedState_mk_registry (r : String → Option Nat) (ts : Nat → Option TaskRec)
    (n : Nat) (e : List SchedEvent) : (SchedState.mk r ts n e).registry = r := rfl

theorem schedState_mk_tasks (r : String → Option Nat) (ts : Nat → Option TaskRec)
    (n : Nat) (e : List SchedEvent) : (SchedState.mk r ts n e).tasks = ts := rfl

theorem schedState_mk_nextSid (r : String → Option Nat) (ts : Nat → Option TaskRec)
    (n : Nat) (e : List SchedEvent) : (SchedState.mk r ts n e).nextSid = n := rfl

theorem schedState_mk_events (r : String → Option Nat) (ts : Nat → Option TaskRec)
    (n : Nat) (e : List SchedEvent) : (SchedState.mk r ts n e).events = e := rfl

theorem stop_inv (key : String) (st : SchedState) (h : SchedInv st) :
    SchedInv (StopDeviceAnimation key st) := by
  cases hreg : st.registry key with
  | none =>
    have heq : StopDeviceAnimation key st = st := by
      simp [StopDeviceAnimation, hreg]
    rw [heq]
    exact h
  | some sid =>
    have heq : StopDeviceAnimation key st
        = SchedState.mk (setReg st.registry key none) (cancelTask st.tasks sid)
            st.nextSid st.events := by
      simp [StopDeviceAnimation, hreg]
    rw [heq]
    constructor
    · intro s hs
      rw [schedState_mk_tasks]
      rw [schedState_mk_nextSid] at hs
      have hnone := h.fresh s hs
      by_cases hssid : s = sid
      · subst hssid
        simp [cancelTask, hnone]
      · rw [cancelTask_other st.tasks sid s hssid]
        exact hnone
    · intro s t hts hfail
      rw [schedState_mk_tasks] at hts
      by_cases hssid : s = sid
      · subst hssid
        simp only [cancelTask, if_pos rfl] at hts
        cases hbase : st.tasks s with
        | none => rw [hbase] at hts; cases hts
        | some t0 =>
          rw [hbase] at hts
          simp only [Option.map_some'] at hts
          have ht0 : ({ t0 with cancelled := true } : TaskRec) = t := Option.some.inj hts
          have hfail0 : t0.activateFails = true := by
            rw [← ht0] at hfail
            exact hfail
          have h2 := h.failingNoLoop s t0 hbase hfail0
          rw [← ht0]
          exact h2
      · rw [cancelTask_other st.tasks sid s hssid] at hts
        exact h.failingNoLoop s t hts hfail
    · intro s fi hmem
      rw [schedState_mk_events] at hmem
      rw [schedState_mk_tasks]
      obtain ⟨t, hts, hf⟩ := h.sentOk s fi hmem
      by_cases hssid : s = sid
      · subst hssid
        refine ⟨{ t with cancelled := true }, ?_, hf⟩
        simp [cancelTask, hts]
      · refine ⟨t, ?_, hf⟩
        rw [cancelTask_other st.tasks sid s hssid]
        exact hts

theorem sid_lt_nextSid (st : SchedState) (h : SchedInv st) (sid : Nat) (t : TaskRec)
    (hts : st.tasks sid = some t) : sid < st.nextSid := by
  by_contra hge
  have hnone := h.fresh sid (by omega)
  rw [hnone] at hts
  cases hts

theorem start_inv (key : String) (n : Nat) (fails : Bool) (st : SchedState)
    (h : SchedInv st) : SchedInv (StartDeviceAnimation key n fails st).1 := by
  have h1 := stop_inv key st h
  have heq : (StartDeviceAnimation key n fails st).1
      = SchedState.mk
          (setReg (StopDeviceAnimation key st).registry key
            (some (StopDeviceAnimation key st).nextSid))
          (setTask (StopDeviceAnimation key st).tasks (StopDeviceAnimation key st).nextSid
            (some (TaskRec.mk (StopDeviceAnimation key st).nextSid key n fails false
              TaskPhase.activating false false 0)))
          ((StopDeviceAnimation key st).nextSid + 1)
          ((StopDeviceAnimation key st).events
            ++ [SchedEvent.registered (StopDeviceAnimation key st).nextSid key]) := rfl
  rw [heq]
  constructor
  · intro s hs
    rw [schedState_mk_tasks]
    rw [schedState_mk_nextSid] at hs
    have hne : s ≠ (StopDeviceAnimation key st).nextSid := by omega
    rw [setTask_other _ _ _ s hne]
    exact h1.fresh s (by omega)
  · intro s t hts hfail
    rw [schedState_mk_tasks] at hts
    by_cases hssid : s = (StopDeviceAnimation key st).nextSid
    · subst hssid
      rw [setTask_same] at hts
      have ht : _ = t := Option.some.inj hts
      rw [← ht]
      exact ⟨Or.inl rfl, rfl⟩
    · rw [setTask_other _ _ _ s hssid] at hts
      exact h1.failingNoLoop s t hts hfail
  · intro s fi hmem
    rw [schedState_mk_events] at hmem
    rw [schedState_mk_tasks]
    rw [List.mem_append] at hmem
    rcases hmem with hmem | hmem
    · obtain ⟨t, hts, hf⟩ := h1.sentOk s fi hmem
      by_cases hssid : s = (StopDeviceAnimation key st).nextSid
      · exfalso
        have := h1.fresh s (le_of_eq hssid.symm)
        rw [this] at hts
        cases hts
      · refine ⟨t, ?_, hf⟩
        rw [setTask_other _ _ _ s hssid]
        exact hts
    · simp at hmem

theorem update_inv (r : String → Option Nat) (st : SchedState) (h : SchedInv st)
    (sid : Nat) (t : TaskRec) (hts : st.tasks sid = some t) (f : TaskRec → TaskRec)
    (hfails : (f t).activateFails = t.activateFails)
    (hfail_ok : t.activateFails = true →
        ((f t).phase = TaskPhase.activating ∨ (f t).phase = TaskPhase.exited)
          ∧ (f t).inTick = false)
    (e2 : List SchedEvent)
    (he2 : ∀ (s fi : Nat), SchedEvent.sent s fi ∈ e2 → s = sid ∧ t.activateFails = false) :
    SchedInv (SchedState.mk r (setTask st.tasks sid (some (f t))) st.nextSid
      (st.events ++ e2)) := by
  constructor
  · intro s hs
    rw [schedState_mk_tasks]
    rw [schedState_mk_nextSid] at hs
    have hlt := sid_lt_nextSid st h sid t hts
    have hne : s ≠ sid := by omega
    rw [setTask_other _ _ _ s hne]
    exact h.fresh s hs
  · intro s u hu huf
    rw [schedState_mk_tasks] at hu
    by_cases hssid : s = sid
    · subst hssid
      rw [setTask_same] at hu
      have hut : f t = u := Option.some.inj hu
      have htf : t.activateFails = true := by
        rw [← hut, hfails] at huf
        exact huf
      rw [← hut]
      exact hfail_ok htf
    · rw [setTask_other _ _ _ s hssid] at hu
      exact h.failingNoLoop s u hu huf
  · intro s fi hmem
    rw [schedState_mk_events] at hmem
    rw [schedState_mk_tasks]
    rw [List.mem_append] at hmem
    by_cases hssid : s = sid
    · subst hssid
      refine ⟨f t, setTask_same _ _ _, ?_⟩
      rw [hfails]
      rcases hmem with hmem | hmem
      · obtain ⟨u, hu, huf⟩ := h.sentOk s fi hmem
        rw [hts] at hu
        have hut : t = u := Option.some.inj hu
        rw [hut]
        exact huf
      · exact (he2 s fi hmem).2
    · rcases hmem with hmem | hmem
      · obtain ⟨u, hu, huf⟩ := h.sentOk s fi hmem
        refine ⟨u, ?_, huf⟩
        rw [setTask_other _ _ _ s hssid]
        exact hu
      · exact absurd (he2 s fi hmem).1 hssid

theorem step_inv (st : SchedState) (a : SchedAction) (h : SchedInv st) :
    SchedInv (step st a) := by
  cases a with
  | start key n fails => exact start_inv key n fails st h
  | stop key => exact stop_inv key st h
  | taskActivate sid =>
    cases hts : st.tasks sid with
    | none =>
      have heq : step st (.taskActivate sid) = st := by simp [step, hts]
      rw [heq]; exact h
    | some t =>
      by_cases hph : t.phase = TaskPhase.activating
      · cases hf : t.activateFails with
        | true =>
          have heq : step st (.taskActivate sid)
              = SchedState.mk (setReg st.registry t.key none)
                  (setTask st.tasks sid
                    (some { t with phase := TaskPhase.exited, cancelled := true }))
                  st.nextSid (st.events ++ [SchedEvent.loggedActivationError sid]) := by
            simp [step, hts, hph, hf]
          rw [heq]
          exact update_inv _ st h sid t hts
            (fun u => { u with phase := TaskPhase.exited, cancelled := true }) rfl
            (fun htf => ⟨Or.inr rfl, (h.failingNoLoop sid t hts htf).2⟩)
            [SchedEvent.loggedActivationError sid]
            (fun s fi hmem => by simp at hmem)
        | false =>
          have heq : step st (.taskActivate sid)
              = SchedState.mk st.registry
                  (setTask st.tasks sid (some { t with phase := TaskPhase.looping }))
                  st.nextSid st.events := by
            simp [step, hts, hph, hf]
          rw [heq]
          have hinv := update_inv st.registry st h sid t hts
            (fun u => { u with phase := TaskPhase.looping }) rfl
            (fun htf => by rw [hf] at htf; cases htf)
            [] (fun s fi hmem => by simp at hmem)
          simpa using hinv
      · have heq : step st (.taskActivate sid) = st := by simp [step, hts, hph]
        rw [heq]; exact h
  | tickFire sid =>
    cases hts : st.tasks sid with
    | none =>
      have heq : step st (.tickFire sid) = st := by simp [step, hts]
      rw [heq]; exact h
    | some t =>
      by_cases hcond : (t.phase = TaskPhase.looping ∧ t.inTick = false)
      · have heq : step st (.tickFire sid)
            = SchedState.mk st.registry
                (setTask st.tasks sid (some { t with tickPending := true }))
                st.nextSid st.events := by
          simp [step, hts, hcond]
        rw [heq]
        have hinv := update_inv st.registry st h sid t hts
          (fun u => { u with tickPending := true }) rfl
          (fun htf => h.failingNoLoop sid t hts htf)
          [] (fun s fi hmem => by simp at hmem)
        simpa using hinv
      · have heq : step st (.tickFire sid) = st := by simp [step, hts, hcond]
        rw [heq]; exact h
  | taskBeginTick sid =>
    cases hts : st.tasks sid with
    | none =>
      have heq : step st (.taskBeginTick sid) = st := by simp [step, hts]
      rw [heq]; exact h
    | some t =>
      by_cases hcond : (t.phase = TaskPhase.looping ∧ t.tickPending = true
          ∧ t.inTick = false ∧ t.cancelled = false)
      · have heq : step st (.taskBeginTick sid)
            = SchedState.mk st.registry
                (setTask st.tasks sid (some
                  { t with tickPending := false, inTick := true,
                           frameIndex := if t.framesLen ≤ t.frameIndex then 0
                             else t.frameIndex }))
                st.nextSid st.events := by
          simp [step, hts, hcond]
        rw [heq]
        have hinv := update_inv st.registry st h sid t hts
          (fun u => { u with tickPending := false, inTick := true,
                             frameIndex := if t.framesLen ≤ t.frameIndex then 0
                               else t.frameIndex }) rfl
          (fun htf => by
            have hph := (h.failingNoLoop sid t hts htf).1
            rw [hcond.1] at hph
            rcases hph with hph | hph <;> cases hph)
          [] (fun s fi hmem => by simp at hmem)
        simpa using hinv
      · have heq : step st (.taskBeginTick sid) = st := by simp [step, hts, hcond]
        rw [heq]; exact h
  | taskFinishTick sid =>
    cases hts : st.tasks sid with
    | none =>
      have heq : step st (.taskFinishTick sid) = st := by simp [step, hts]
      rw [heq]; exact h
    | some t =>
      by_cases hcond : (t.phase = TaskPhase.looping ∧ t.inTick = true)
      · have heq : step st (.taskFinishTick sid)
            = SchedState.mk st.registry
                (setTask st.tasks sid (some
                  { t with inTick := false, frameIndex := t.frameIndex + 1 }))
                st.nextSid (st.events ++ [SchedEvent.sent sid t.frameIndex]) := by
          simp [step, hts, hcond]
        rw [heq]
        have hnofail : t.activateFails = false := by
          cases hq : t.activateFails
          · rfl
          · exfalso
            have hph := (h.failingNoLoop sid t hts hq).1
            rw [hcond.1] at hph
            rcases hph with hph | hph <;> cases hph
        exact update_inv st.registry st h sid t hts
          (fun u => { u with inTick := false, frameIndex := u.frameIndex + 1 }) rfl
          (fun htf => by rw [hnofail] at htf; cases htf)
          [SchedEvent.sent sid t.frameIndex]
          (fun s fi hmem => by
            simp only [List.mem_singleton] at hmem
            cases hmem
            exact ⟨rfl, hnofail⟩)
      · have heq : step st (.taskFinishTick sid) = st := by simp [step, hts, hcond]
        rw [heq]; exact h
  | taskObserveCancel sid =>
    cases hts : st.tasks sid with
    | none =>
      have heq : step st (.taskObserveCancel sid) = st := by simp [step, hts]
      rw [heq]; exact h
    | some t =>
      by_cases hcond : (t.phase = TaskPhase.looping ∧ t.cancelled = true ∧ t.inTick = false)
      · have heq : step st (.taskObserveCancel sid)
            = SchedState.mk (setReg st.registry t.key none)
                (setTask st.tasks sid (some { t with phase := TaskPhase.exited }))
                st.nextSid st.events := by
          simp [step, hts, hcond]
        rw [heq]
        have hinv := update_inv (setReg st.registry t.key none) st h sid t hts
          (fun u => { u with phase := TaskPhase.exited }) rfl
          (fun htf => ⟨Or.inr rfl, (h.failingNoLoop sid t hts htf).2⟩)
          [] (fun s fi hmem => by simp at hmem)
        simpa using hinv
      · have heq : step st (.taskObserveCancel sid) = st := by simp [step, hts, hcond]
        rw [heq]; exact h

theorem initState_inv : SchedInv initState := by
  constructor
  · intro s _
    rfl
  · intro s t hts _
    cases hts
  · intro s fi hmem
    cases hmem

theorem run_inv_general : ∀ (script : List SchedAction) (st : SchedState),
    SchedInv st → SchedInv (runActions st script) := by
  intro script
  induction script with
  | nil => intro st hst; exact hst
  | cons a l2 ih =>
    intro st hst
    exact ih (step st a) (step_inv st a hst)

theorem run_inv (script : List SchedAction) : SchedInv (runActions initState script) :=
  run_inv_general script initState initState_inv

/-- C2 amended: when the one-time `ActivateFxMode` exchange fails, the
playback goroutine exits without ever sending a frame (no `sent` event of
a failing session appears in any reachable trace), removes its device's
registry entry and logs the error; but `StartDeviceAnimation` itself
returns `nil` on every path — the activation error is never returned to
start's caller. -/
theorem start_activation_failure_semantics :
    (∀ (key : String) (framesLen : Nat) (activateFails : Bool) (st : SchedState),
        (StartDeviceAnimation key framesLen activateFails st).2 = none) ∧
    (∀ (st : SchedState) (sid : Nat) (t : TaskRec),
        st.tasks sid = some t → t.phase = TaskPhase.activating →
        t.activateFails = true →
        (step st (.taskActivate sid)).tasks sid
            = some { t with phase := TaskPhase.exited, cancelled := true } ∧
        (step st (.taskActivate sid)).registry t.key = none ∧
        (step st (.taskActivate sid)).events
            = st.events ++ [SchedEvent.loggedActivationError sid]) ∧
    (∀ (script : List SchedAction) (sid frameIndex : Nat),
        SchedEvent.sent sid frameIndex ∈ (runActions initState script).events →
        ∃ t, (runActions initState script).tasks sid = some t
          ∧ t.activateFails = false) := by
  refine ⟨fun key n fails st => rfl, ?_,
    fun script sid fi hmem => (run_inv script).sentOk sid fi hmem⟩
  intro st sid t hts hph hf
  have heq : step st (.taskActivate sid)
      = SchedState.mk (setReg st.registry t.key none)
          (setTask st.tasks sid
            (some { t with phase := TaskPhase.exited, cancelled := true }))
          st.nextSid (st.events ++ [SchedEvent.loggedActivationError sid]) := by
    simp [step, hts, hph, hf]
  rw [heq]
  refine ⟨?_, ?_, rfl⟩
  · rw [schedState_mk_tasks, setTask_same]
  · rw [schedState_mk_registry]
    simp [setReg]

/-- Witness for the amended C2 at a concrete failing-activation session. -/
theorem start_activation_failure_semantics_witness :
    (runActions initState [.start "D" 1 true]).tasks 0
        = some (TaskRec.mk 0 "D" 1 true false TaskPhase.activating false false 0) ∧
    (step (runActions initState [.start "D" 1 true]) (.taskActivate 0)).registry "D"
        = none :=
  ⟨rfl,
   (start_activation_failure_semantics.2.1 (runActions initState [.start "D" 1 true]) 0
     (TaskRec.mk 0 "D" 1 true false TaskPhase.activating false false 0) rfl rfl rfl).2.1⟩
